import Mathlib

/-!
Verification of the playback controller of `src/src/main.rs` (the
`MusicPlayer` struct and its methods, together with the `PlayerMessage`
channel protocol and the `Song` record).

Modelling conventions:
* `usize` indices become `Nat`; Rust `%` by zero and `usize` underflow are
  panics, so the two methods that can hit them (`next`, `previous`) return
  `Option MusicPlayer`, with `none` standing for a panic.
* File paths (`PathBuf`) become lists of path components, so that Rust
  `Path::starts_with` is component-wise `List.isPrefixOf`.
* The `f32` volume becomes `ℚ`; `clamp(0.0, 1.0)` is exact on the bounds.
* The `mpsc` channel to the audio thread is modelled by recording, in a
  `sent` field, the list of messages passed to `_player_tx.send`, in order.
* Rust `str::to_lowercase` is modelled by per-character `Char.toLower`
  (exact on ASCII data).
* the `SliceRandom::shuffle` of the rand crate (Fisher–Yates, descending indices) is
  parameterized by the sequence of random draws `choose : Nat → Nat`;
  `gen_range(0..=i)` guarantees a value in `0..=i`, modelled by reducing
  `choose i` modulo `i + 1`.
-/

/-- Messages sent to the audio playback thread (Rust `enum PlayerMessage`). -/
inductive PlayerMessage where
  | Play (path : List String)
  | Stop
  | Next
  | Previous
  | Quit
  | AddDirectory (dir : List String)
  | RemoveDirectory (index : Nat)
  | SetVolume (vol : ℚ)
  | Shuffle
  | AddToQueue (index : Nat)
deriving DecidableEq, Repr

/-- One indexed audio file (Rust `struct Song`). -/
structure Song where
  path : List String
  title : String
  artist : String
  album : String
  genre : String
deriving DecidableEq, Repr

/-- Rust `enum ViewMode`. -/
inductive ViewMode where
  | AllSongs
  | Artists
  | Albums
  | Genres
  | Queue
  | Search
deriving DecidableEq, Repr

/-- Rust `struct MusicPlayer`. The `queue` is the `VecDeque<usize>` with its
front at the head of the list; `sent` records every message passed to
`_player_tx.send`, oldest first. -/
structure MusicPlayer where
  songs : List Song
  current_index : Nat
  is_playing : Bool
  music_dirs : List (List String)
  volume : ℚ
  queue : List Nat
  view_mode : ViewMode
  search_query : String
  sent : List PlayerMessage
deriving DecidableEq, Repr

/-- Per-character lowercasing, modelling Rust `str::to_lowercase` (exact on
ASCII metadata, which is all the claims exercise). -/
def lowerChars (s : String) : List Char :=
  s.data.map Char.toLower

/-- Substring test modelling Rust `str::contains`: `containsChars hay pat`
holds when `pat` occurs contiguously inside `hay`. The empty pattern occurs
in every string, as in Rust. -/
def containsChars : List Char → List Char → Bool
  | [], pat => List.isPrefixOf pat []
  | h :: t, pat => List.isPrefixOf pat (h :: t) || containsChars t pat

/-- The filter predicate of `MusicPlayer::search`: case-insensitive substring
match of the query against title OR artist OR album. -/
def songMatches (query : String) (song : Song) : Bool :=
  containsChars (lowerChars song.title) (lowerChars query) ||
  containsChars (lowerChars song.artist) (lowerChars query) ||
  containsChars (lowerChars song.album) (lowerChars query)

/-- Rust `MusicPlayer::search`: enumerate the library and keep the
`(position, song)` pairs whose metadata matches the query. -/
def search (songs : List Song) (query : String) : List (Nat × Song) :=
  songs.enum.filter fun p => songMatches query p.2

/-- Swap two positions of a list (Rust slice `swap`). With an index out of
range the list is returned unchanged; the shuffle loop below only ever swaps
in range. -/
def lswap {α : Type*} (l : List α) (i j : Nat) : List α :=
  match l[i]?, l[j]? with
  | some x, some y => (l.set i y).set j x
  | _, _ => l

/-- The descending swap loop of the rand crate `SliceRandom::shuffle`:
`for i in (1..len).rev() { swap(i, gen_range(0..=i)) }`. The second argument
counts the remaining loop index, so the call for a list `l` starts at
`l.length - 1`. -/
def shuffleSwaps {α : Type*} (choose : Nat → Nat) : List α → Nat → List α
  | l, 0 => l
  | l, i + 1 => shuffleSwaps choose (lswap l (i + 1) (choose (i + 1) % (i + 2))) i

/-- Rust `self.songs.shuffle(&mut rng)`, with the random draws abstracted. -/
def shuffleList {α : Type*} (choose : Nat → Nat) (l : List α) : List α :=
  shuffleSwaps choose l (l.length - 1)

namespace MusicPlayer

/-- Rust `MusicPlayer::play_current`: if a song exists at `current_index`,
send `Play(path)` and set `is_playing`; otherwise do nothing. -/
def play_current (p : MusicPlayer) : MusicPlayer :=
  match p.songs[p.current_index]? with
  | some song =>
      { p with sent := p.sent ++ [PlayerMessage.Play song.path], is_playing := true }
  | none => p

/-- Rust `MusicPlayer::stop`. -/
def stop (p : MusicPlayer) : MusicPlayer :=
  { p with sent := p.sent ++ [PlayerMessage.Stop], is_playing := false }

/-- Rust `MusicPlayer::next`. `none` models a panic: with an empty queue the
source computes `(self.current_index + 1) % self.songs.len()`, and Rust `%`
panics on division by zero when the library is empty. -/
def next (p : MusicPlayer) : Option MusicPlayer :=
  match p.queue with
  | i :: rest =>
      let p1 := { p with current_index := i, queue := rest }
      some (if p1.is_playing then play_current p1 else p1)
  | [] =>
      if p.songs.length = 0 then none
      else
        let p1 := { p with current_index := (p.current_index + 1) % p.songs.length }
        some (if p1.is_playing then play_current p1 else p1)

/-- Rust `MusicPlayer::previous`. `none` models a panic: at
`current_index == 0` on an empty library the source computes
`self.songs.len() - 1`, a `usize` underflow, which panics under the overflow
checks of the default debug profile. -/
def previous (p : MusicPlayer) : Option MusicPlayer :=
  if p.current_index > 0 then
    let p1 := { p with current_index := p.current_index - 1 }
    some (if p1.is_playing then play_current p1 else p1)
  else if p.songs.length = 0 then none
  else
    let p1 := { p with current_index := p.songs.length - 1 }
    some (if p1.is_playing then play_current p1 else p1)

/-- Rust `MusicPlayer::remove_directory`: reject out-of-range positions,
otherwise retain only songs not nested under the removed directory, erase
the directory entry, and pull `current_index` back into range if needed
(`saturating_sub` is `Nat` subtraction). -/
def remove_directory (p : MusicPlayer) (index : Nat) : Except String MusicPlayer :=
  if index ≥ p.music_dirs.length then
    Except.error "Invalid directory index"
  else
    let removed_dir := p.music_dirs.getD index []
    let songs2 := p.songs.filter fun song => !(List.isPrefixOf removed_dir song.path)
    let dirs2 := p.music_dirs.eraseIdx index
    let ci2 := if p.current_index ≥ songs2.length then songs2.length - 1 else p.current_index
    Except.ok { p with songs := songs2, music_dirs := dirs2, current_index := ci2 }

/-- Rust `MusicPlayer::set_volume`: clamp the new volume into `[0, 1]` and
always send it to the playback thread. -/
def set_volume (p : MusicPlayer) (delta : ℚ) : MusicPlayer :=
  let v := min 1 (max 0 (p.volume + delta))
  { p with volume := v, sent := p.sent ++ [PlayerMessage.SetVolume v] }

/-- Rust `MusicPlayer::shuffle`, parameterized by the random draws of the
thread-local RNG. -/
def shuffle (choose : Nat → Nat) (p : MusicPlayer) : MusicPlayer :=
  let p1 := { p with songs := shuffleList choose p.songs, current_index := 0 }
  if p1.is_playing then play_current p1 else p1

/-- Rust `MusicPlayer::add_to_queue`: silently drop out-of-range positions. -/
def add_to_queue (p : MusicPlayer) (index : Nat) : MusicPlayer :=
  if index < p.songs.length then { p with queue := p.queue ++ [index] } else p

end MusicPlayer

/-- The player state produced by `MusicPlayer::new` for a given already
scanned song list and directory list (the audio thread and filesystem walk
are external): index 0, not playing, volume 1, empty queue. -/
def initPlayer (songs : List Song) (dirs : List (List String)) : MusicPlayer :=
  { songs := songs
    current_index := 0
    is_playing := false
    music_dirs := dirs
    volume := 1
    queue := []
    view_mode := ViewMode.AllSongs
    search_query := ""
    sent := [] }

/-- Concrete song used by witnesses, matching the spec scenario title `Song1`. -/
def song1 : Song :=
  { path := ["C:", "music", "B - Song1.mp3"]
    title := "Song1"
    artist := "B"
    album := "Unknown Album"
    genre := "Unknown Genre" }

/-- Concrete song used by witnesses, matching the spec scenario title `song2`. -/
def song2 : Song :=
  { path := ["C:", "music", "A - song2.mp3"]
    title := "song2"
    artist := "A"
    album := "Unknown Album"
    genre := "Unknown Genre" }

/-- Song living under a second directory, used by the removal witness. -/
def song3 : Song :=
  { path := ["D:", "other", "C - Song3.mp3"]
    title := "Song3"
    artist := "C"
    album := "Other Album"
    genre := "Unknown Genre" }

/-- Two-song witness player over a single source directory. -/
def twoSongPlayer : MusicPlayer :=
  initPlayer [song1, song2] [["C:", "music"]]

section HelperLemmas

/-- Sending a play command never touches the song list. -/
theorem play_current_songs (p : MusicPlayer) :
    (MusicPlayer.play_current p).songs = p.songs := by
  unfold MusicPlayer.play_current
  split <;> rfl

/-- Sending a play command never touches the cursor. -/
theorem play_current_current_index (p : MusicPlayer) :
    (MusicPlayer.play_current p).current_index = p.current_index := by
  unfold MusicPlayer.play_current
  split <;> rfl

/-- Sending a play command never touches the playback queue. -/
theorem play_current_queue (p : MusicPlayer) :
    (MusicPlayer.play_current p).queue = p.queue := by
  unfold MusicPlayer.play_current
  split <;> rfl

/-- The conditional replay after a cursor move keeps the song list. -/
theorem ite_play_songs (p : MusicPlayer) :
    (if p.is_playing then MusicPlayer.play_current p else p).songs = p.songs := by
  split
  · exact play_current_songs p
  · rfl

/-- The conditional replay after a cursor move keeps the cursor. -/
theorem ite_play_current_index (p : MusicPlayer) :
    (if p.is_playing then MusicPlayer.play_current p else p).current_index =
      p.current_index := by
  split
  · exact play_current_current_index p
  · rfl

/-- The conditional replay after a cursor move keeps the queue. -/
theorem ite_play_queue (p : MusicPlayer) :
    (if p.is_playing then MusicPlayer.play_current p else p).queue = p.queue := by
  split
  · exact play_current_queue p
  · rfl

/-- The empty pattern is a substring of every string. -/
theorem containsChars_nil (hay : List Char) : containsChars hay [] = true := by
  cases hay <;> simp [containsChars, List.isPrefixOf]

/-- When a song exists at the cursor, `play_current` sends exactly one Play
command for it and raises the playing flag. -/
theorem play_current_of_get (p : MusicPlayer) (s : Song)
    (h : p.songs[p.current_index]? = some s) :
    MusicPlayer.play_current p =
      { p with sent := p.sent ++ [PlayerMessage.Play s.path], is_playing := true } := by
  unfold MusicPlayer.play_current
  rw [h]

end HelperLemmas

/-- C1: evaluated on an empty library, `play_current` is a harmless no-op
that leaves `is_playing = false`, but `next` and `previous` both panic
(`(current_index + 1) % 0` divides by zero; `0usize - 1` underflows), so the
claim that all three calls return without a crash fails on the code. -/
theorem empty_library_next_previous_panic :
    MusicPlayer.play_current (initPlayer [] []) = initPlayer [] [] ∧
    (MusicPlayer.play_current (initPlayer [] [])).is_playing = false ∧
    MusicPlayer.next (initPlayer [] []) = none ∧
    MusicPlayer.previous (initPlayer [] []) = none :=
  ⟨rfl, rfl, rfl, rfl⟩

/-- C2 counterexample: on a one-song library, `search` applied to the empty
query returns the whole library, not the empty list. -/
theorem search_empty_query_counterexample :
    search [song1] "" = [(0, song1)] ∧ search [song1] "" ≠ [] := by
  constructor
  · decide
  · decide

/-- C2 amended: `search` with the empty query matches every song and returns
the full enumerated library; the blank rendering for an empty query comes
from the UI guard that skips calling `search`, not from `search` itself. -/
theorem search_empty_query_returns_all (songs : List Song) :
    search songs "" = songs.enum := by
  unfold search
  refine List.filter_eq_self.mpr ?_
  intro a _
  simp [songMatches, lowerChars, containsChars_nil]

/-- C9: `add_to_queue` on an out-of-range position is a silent no-op leaving
the player (hence the queue) unchanged, and on an in-range position appends
exactly that position at the back of the queue, the song list untouched. -/
theorem add_to_queue_spec (p : MusicPlayer) (index : Nat) :
    (index ≥ p.songs.length → MusicPlayer.add_to_queue p index = p) ∧
    (index < p.songs.length →
      (MusicPlayer.add_to_queue p index).queue = p.queue ++ [index] ∧
      (MusicPlayer.add_to_queue p index).songs = p.songs) := by
  unfold MusicPlayer.add_to_queue
  constructor
  · intro h
    rw [if_neg (by omega)]
  · intro h
    rw [if_pos h]
    exact ⟨rfl, rfl⟩

/-- C9 witness: both branches at concrete inputs on the two-song player. -/
theorem add_to_queue_spec_witness :
    MusicPlayer.add_to_queue twoSongPlayer 5 = twoSongPlayer ∧
    (MusicPlayer.add_to_queue twoSongPlayer 1).queue = twoSongPlayer.queue ++ [1] :=
  ⟨(add_to_queue_spec twoSongPlayer 5).1 (by decide),
   ((add_to_queue_spec twoSongPlayer 1).2 (by decide)).1⟩

section PermLemmas

/-- Replacing the element at `j` by `a` and consing the old element in front
permutes consing `a` in front of the original list. -/
theorem cons_set_perm {α : Type*} :
    ∀ (t : List α) (j : Nat) (y a : α),
      t[j]? = some y → List.Perm (y :: t.set j a) (a :: t)
  | [], j, y, a, h => by simp at h
  | b :: t, 0, y, a, h => by
      simp only [List.getElem?_cons_zero, Option.some.injEq] at h
      subst h
      simpa using List.Perm.swap a b t
  | b :: t, j + 1, y, a, h => by
      simp only [List.getElem?_cons_succ] at h
      have ih := cons_set_perm t j y a h
      refine (List.Perm.swap b y (t.set j a)).trans ?_
      refine (ih.cons b).trans ?_
      exact List.Perm.swap a b t

/-- A single in-place swap is a permutation. -/
theorem lswap_perm {α : Type*} :
    ∀ (l : List α) (i j : Nat), List.Perm (lswap l i j) l
  | [], i, j => by simp [lswap]
  | a :: t, 0, 0 => by simp [lswap]
  | a :: t, 0, k + 1 => by
      cases h : t[k]? with
      | none => simp [lswap, h]
      | some y => simpa [lswap, h] using cons_set_perm t k y a h
  | a :: t, m + 1, 0 => by
      cases h : t[m]? with
      | none => simp [lswap, h]
      | some x => simpa [lswap, h] using cons_set_perm t m x a h
  | a :: t, m + 1, k + 1 => by
      cases h1 : t[m]? with
      | none => simp [lswap, h1]
      | some x =>
          cases h2 : t[k]? with
          | none => simp [lswap, h1, h2]
          | some y =>
              have ih := lswap_perm t m k
              simp only [lswap, h1, h2] at ih
              simpa [lswap, h1, h2] using ih.cons a

/-- Every run of the shuffle swap loop permutes its input. -/
theorem shuffleSwaps_perm {α : Type*} (choose : Nat → Nat) :
    ∀ (n : Nat) (l : List α), List.Perm (shuffleSwaps choose l n) l := by
  intro n
  induction n with
  | zero => intro l; exact List.Perm.refl l
  | succ n ih => intro l; exact (ih _).trans (lswap_perm l (n + 1) _)

/-- The modelled `SliceRandom::shuffle` permutes the list for every possible
sequence of random draws. -/
theorem shuffleList_perm {α : Type*} (choose : Nat → Nat) (l : List α) :
    List.Perm (shuffleList choose l) l :=
  shuffleSwaps_perm choose (l.length - 1) l

end PermLemmas

/-- C7: `shuffle` replaces the library by a permutation of itself (same
multiset of songs, same length), resets the cursor to 0, and, when the
player was playing on a non-empty library, emits a Play command for the
song now at position 0 and stays in the playing state. -/
theorem shuffle_spec (choose : Nat → Nat) (p : MusicPlayer) :
    List.Perm (MusicPlayer.shuffle choose p).songs p.songs ∧
    (MusicPlayer.shuffle choose p).songs.length = p.songs.length ∧
    (MusicPlayer.shuffle choose p).current_index = 0 ∧
    (p.is_playing = true → p.songs ≠ [] →
      ∃ s, (MusicPlayer.shuffle choose p).songs[0]? = some s ∧
        (MusicPlayer.shuffle choose p).sent = p.sent ++ [PlayerMessage.Play s.path] ∧
        (MusicPlayer.shuffle choose p).is_playing = true) := by
  have hperm : List.Perm (MusicPlayer.shuffle choose p).songs p.songs := by
    unfold MusicPlayer.shuffle
    rw [ite_play_songs]
    exact shuffleList_perm choose p.songs
  refine ⟨hperm, hperm.length_eq, ?_, ?_⟩
  · unfold MusicPlayer.shuffle
    rw [ite_play_current_index]
  · intro hplay hne
    have hlen : 0 < (shuffleList choose p.songs).length := by
      rw [(shuffleList_perm choose p.songs).length_eq]
      exact List.length_pos.mpr hne
    have hget : (shuffleList choose p.songs)[0]? =
        some ((shuffleList choose p.songs).get ⟨0, hlen⟩) :=
      List.getElem?_eq_getElem hlen
    have hshuffle : MusicPlayer.shuffle choose p =
        MusicPlayer.play_current
          { p with songs := shuffleList choose p.songs, current_index := 0 } := by
      unfold MusicPlayer.shuffle
      simp [hplay]
    have hpc := play_current_of_get
      { p with songs := shuffleList choose p.songs, current_index := 0 }
      ((shuffleList choose p.songs).get ⟨0, hlen⟩) hget
    refine ⟨(shuffleList choose p.songs).get ⟨0, hlen⟩, ?_, ?_, ?_⟩
    · rw [hshuffle, hpc]
      exact hget
    · rw [hshuffle, hpc]
    · rw [hshuffle, hpc]

/-- Two-song player that is currently playing, used by the shuffle witness. -/
def playingPlayer : MusicPlayer :=
  { twoSongPlayer with is_playing := true }

/-- C7 witness: shuffling the playing two-song player with a constant zero
draw emits a Play command for the song that lands at position 0. -/
theorem shuffle_spec_witness :
    playingPlayer.is_playing = true ∧ playingPlayer.songs ≠ [] ∧
    ∃ s, (MusicPlayer.shuffle (fun _ => 0) playingPlayer).songs[0]? = some s ∧
      (MusicPlayer.shuffle (fun _ => 0) playingPlayer).sent =
        playingPlayer.sent ++ [PlayerMessage.Play s.path] ∧
      (MusicPlayer.shuffle (fun _ => 0) playingPlayer).is_playing = true :=
  ⟨rfl, by decide,
    (shuffle_spec (fun _ => 0) playingPlayer).2.2.2 rfl (by decide)⟩

/-- C10: `shuffle` leaves the playback queue exactly as it was — entries are
neither cleared nor remapped to the reshuffled ordering. -/
theorem shuffle_preserves_queue (choose : Nat → Nat) (p : MusicPlayer) :
    (MusicPlayer.shuffle choose p).queue = p.queue := by
  unfold MusicPlayer.shuffle
  exact ite_play_queue _

/-- C4: with a non-empty queue, `next` cannot panic; it removes exactly the
front queue entry, makes that entry the current index (no modulo advance —
the new index is the queue entry itself, independent of the library length),
keeps the remaining queue entries in order, and leaves the songs untouched. -/
theorem next_nonempty_queue (p : MusicPlayer) (front : Nat) (rest : List Nat)
    (h : p.queue = front :: rest) :
    ∃ q, MusicPlayer.next p = some q ∧ q.current_index = front ∧
      q.queue = rest ∧ q.songs = p.songs := by
  unfold MusicPlayer.next
  rw [h]
  refine ⟨_, rfl, ?_, ?_, ?_⟩
  · rw [ite_play_current_index]
  · rw [ite_play_queue]
  · rw [ite_play_songs]

/-- Two-song player with positions 1 and 0 queued, for the queue witness. -/
def queuedPlayer : MusicPlayer :=
  { twoSongPlayer with queue := [1, 0] }

/-- C4 witness: on the queued player, `next` consumes the front entry 1. -/
theorem next_nonempty_queue_witness :
    ∃ q, MusicPlayer.next queuedPlayer = some q ∧ q.current_index = 1 ∧
      q.queue = [0] ∧ q.songs = queuedPlayer.songs :=
  next_nonempty_queue queuedPlayer 1 [0] rfl

/-- C5: on a non-empty library with an empty queue and a valid cursor,
`next` advances by one modulo the length (so the last position wraps to 0)
and `previous` then restores the original cursor (so position 0 wraps back
to the last position). -/
theorem next_previous_roundtrip (p : MusicPlayer)
    (hne : p.songs ≠ []) (hq : p.queue = []) (hi : p.current_index < p.songs.length) :
    ∃ q r, MusicPlayer.next p = some q ∧
      q.current_index = (p.current_index + 1) % p.songs.length ∧
      MusicPlayer.previous q = some r ∧
      r.current_index = p.current_index := by
  have hlen : p.songs.length ≠ 0 := by
    intro h0
    exact hne (List.length_eq_zero.mp h0)
  have hnext : ∃ q, MusicPlayer.next p = some q ∧
      q.current_index = (p.current_index + 1) % p.songs.length ∧
      q.songs = p.songs := by
    unfold MusicPlayer.next
    rw [hq, if_neg hlen]
    exact ⟨_, rfl, ite_play_current_index _, ite_play_songs _⟩
  obtain ⟨q, hq1, hq2, hq3⟩ := hnext
  by_cases hpos : q.current_index > 0
  · have hprev : ∃ r, MusicPlayer.previous q = some r ∧
        r.current_index = q.current_index - 1 := by
      unfold MusicPlayer.previous
      rw [if_pos hpos]
      exact ⟨_, rfl, ite_play_current_index _⟩
    obtain ⟨r, hr1, hr2⟩ := hprev
    refine ⟨q, r, hq1, hq2, hr1, ?_⟩
    rw [hr2, hq2]
    rcases Nat.lt_or_ge (p.current_index + 1) p.songs.length with hlt | hge
    · rw [Nat.mod_eq_of_lt hlt]
      omega
    · have heq : p.current_index + 1 = p.songs.length := by omega
      exfalso
      rw [hq2, heq, Nat.mod_self] at hpos
      exact Nat.lt_irrefl 0 hpos
  · have hn0 : q.songs.length ≠ 0 := by
      rw [hq3]
      exact hlen
    have hprev : ∃ r, MusicPlayer.previous q = some r ∧
        r.current_index = q.songs.length - 1 := by
      unfold MusicPlayer.previous
      rw [if_neg hpos, if_neg hn0]
      exact ⟨_, rfl, ite_play_current_index _⟩
    obtain ⟨r, hr1, hr2⟩ := hprev
    refine ⟨q, r, hq1, hq2, hr1, ?_⟩
    rw [hr2, hq3]
    have hmod : (p.current_index + 1) % p.songs.length = 0 := by
      rw [← hq2]
      omega
    rcases Nat.lt_or_ge (p.current_index + 1) p.songs.length with hlt | hge
    · rw [Nat.mod_eq_of_lt hlt] at hmod
      omega
    · omega

/-- Two-song player whose cursor sits at the last position, so both
wraparounds of the roundtrip are exercised. -/
def lastIndexPlayer : MusicPlayer :=
  { twoSongPlayer with current_index := 1 }

/-- C5 witness: on the two-song player at the last position, `next` wraps to
0 and `previous` wraps back to 1. -/
theorem next_previous_roundtrip_witness :
    ∃ q r, MusicPlayer.next lastIndexPlayer = some q ∧
      q.current_index = (lastIndexPlayer.current_index + 1) %
        lastIndexPlayer.songs.length ∧
      MusicPlayer.previous q = some r ∧
      r.current_index = lastIndexPlayer.current_index :=
  next_previous_roundtrip lastIndexPlayer (by decide) rfl (by decide)

/-- C3: for a non-empty query, `search` returns exactly the pairs of an
in-range position and the song stored there whose lowercased title, artist
or album contains the lowercased query as a substring, and lists them with
strictly increasing positions, as a sub-sequence of the enumerated library
(library order). -/
theorem search_characterization (songs : List Song) (query : String)
    (_hq : query ≠ "") :
    (∀ i t, (i, t) ∈ search songs query ↔
      songs[i]? = some t ∧
      (containsChars (lowerChars t.title) (lowerChars query) = true ∨
       containsChars (lowerChars t.artist) (lowerChars query) = true ∨
       containsChars (lowerChars t.album) (lowerChars query) = true)) ∧
    List.Pairwise (fun a b => a.1 < b.1) (search songs query) ∧
    List.Sublist (search songs query) songs.enum := by
  refine ⟨?_, ?_, List.filter_sublist _⟩
  · intro i t
    unfold search
    rw [List.mem_filter, List.mk_mem_enum_iff_getElem?]
    simp [songMatches, or_assoc]
  · have henum : List.Pairwise (fun a b : Nat × Song => a.1 < b.1) songs.enum := by
      have h1 : List.Pairwise (· < ·) (songs.enum.map Prod.fst) := by
        rw [List.enum_map_fst]
        exact List.pairwise_lt_range _
      exact List.pairwise_map.mp h1
    exact henum.sublist (List.filter_sublist _)

/-- C3 witness: the spec scenario — searching `song1` over titles `Song1`
and `song2` finds the first track case-insensitively. -/
theorem search_characterization_witness :
    (0, song1) ∈ search [song1, song2] "song1" :=
  (((search_characterization [song1, song2] "song1" (by decide)).1 0 song1)).mpr
    (by decide)

/-- C6: `remove_directory` errors exactly on positions outside the source
directory list; on success it keeps exactly the songs not nested under the
removed directory (a sub-sequence, so relative order is preserved), erases
exactly the addressed directory entry (again a sub-sequence of the old
list), and clamps the cursor to the new last position whenever the shrunken
library no longer covers it, leaving it unchanged when it still does. -/
theorem remove_directory_spec (p : MusicPlayer) (index : Nat) :
    (index ≥ p.music_dirs.length →
      MusicPlayer.remove_directory p index = Except.error "Invalid directory index") ∧
    (index < p.music_dirs.length →
      ∃ q, MusicPlayer.remove_directory p index = Except.ok q ∧
        (∀ s : Song, s ∈ q.songs ↔ s ∈ p.songs ∧
          List.isPrefixOf (p.music_dirs.getD index []) s.path = false) ∧
        List.Sublist q.songs p.songs ∧
        q.music_dirs = p.music_dirs.eraseIdx index ∧
        List.Sublist q.music_dirs p.music_dirs ∧
        (q.songs ≠ [] → q.current_index < q.songs.length) ∧
        (p.current_index < q.songs.length → q.current_index = p.current_index) ∧
        (q.songs.length ≤ p.current_index → q.current_index = q.songs.length - 1)) := by
  constructor
  · intro h
    unfold MusicPlayer.remove_directory
    rw [if_pos h]
  · intro h
    unfold MusicPlayer.remove_directory
    rw [if_neg (by omega)]
    refine ⟨_, rfl, ?_, List.filter_sublist _, rfl, List.eraseIdx_sublist _ _,
      ?_, ?_, ?_⟩
    · intro s
      simp [List.mem_filter]
    · intro hne
      dsimp only at hne ⊢
      split
      · refine Nat.sub_lt ?_ Nat.one_pos
        exact List.length_pos.mpr hne
      · omega
    · intro hlt
      dsimp only at hlt ⊢
      rw [if_neg (by omega)]
    · intro hge
      dsimp only at hge ⊢
      rw [if_pos (by omega)]

/-- Player over two source directories, used by the removal witness. -/
def twoDirPlayer : MusicPlayer :=
  { initPlayer [song1, song2, song3] [["C:", "music"], ["D:", "other"]] with
    current_index := 2 }

/-- C6 witness: removing directory 0 of the two-directory player drops the
two songs under it, keeps the third, erases the directory entry, and clamps
the cursor from 2 to the new last position 0. -/
theorem remove_directory_spec_witness :
    ∃ q, MusicPlayer.remove_directory twoDirPlayer 0 = Except.ok q ∧
      (∀ s : Song, s ∈ q.songs ↔ s ∈ twoDirPlayer.songs ∧
        List.isPrefixOf (twoDirPlayer.music_dirs.getD 0 []) s.path = false) ∧
      List.Sublist q.songs twoDirPlayer.songs ∧
      q.music_dirs = twoDirPlayer.music_dirs.eraseIdx 0 ∧
      List.Sublist q.music_dirs twoDirPlayer.music_dirs ∧
      (q.songs ≠ [] → q.current_index < q.songs.length) ∧
      (twoDirPlayer.current_index < q.songs.length →
        q.current_index = twoDirPlayer.current_index) ∧
      (q.songs.length ≤ twoDirPlayer.current_index →
        q.current_index = q.songs.length - 1) :=
  (remove_directory_spec twoDirPlayer 0).2 (by decide)

/-- Clamped volume updates keep the volume inside the unit interval along
any call sequence. -/
theorem foldl_set_volume_bounds (deltas : List ℚ) :
    ∀ p : MusicPlayer, 0 ≤ p.volume → p.volume ≤ 1 →
      0 ≤ (deltas.foldl MusicPlayer.set_volume p).volume ∧
      (deltas.foldl MusicPlayer.set_volume p).volume ≤ 1 := by
  induction deltas with
  | nil =>
      intro p h0 h1
      exact ⟨h0, h1⟩
  | cons d rest ih =>
      intro p h0 h1
      apply ih
      · show (0 : ℚ) ≤ min 1 (max 0 (p.volume + d))
        exact le_min (by norm_num) (le_max_left 0 _)
      · show min 1 (max 0 (p.volume + d)) ≤ (1 : ℚ)
        exact min_le_left _ _

/-- C8: `set_volume` stores exactly the clamped sum, always appends a
SetVolume command to the channel regardless of the play state (which it
leaves untouched), and from any starting volume in `[0, 1]` every sequence
of `set_volume` calls keeps the volume inside `[0, 1]`. -/
theorem set_volume_spec (p : MusicPlayer) :
    (∀ delta : ℚ,
      (MusicPlayer.set_volume p delta).volume = min 1 (max 0 (p.volume + delta)) ∧
      (MusicPlayer.set_volume p delta).sent =
        p.sent ++ [PlayerMessage.SetVolume (min 1 (max 0 (p.volume + delta)))] ∧
      (MusicPlayer.set_volume p delta).is_playing = p.is_playing) ∧
    (0 ≤ p.volume → p.volume ≤ 1 → ∀ deltas : List ℚ,
      0 ≤ (deltas.foldl MusicPlayer.set_volume p).volume ∧
      (deltas.foldl MusicPlayer.set_volume p).volume ≤ 1) := by
  refine ⟨fun delta => ⟨rfl, rfl, rfl⟩, ?_⟩
  intro h0 h1 deltas
  exact foldl_set_volume_bounds deltas p h0 h1

/-- C8 witness: from the initial volume 1, the sequence `+1, +1, -1` keeps
the volume inside the unit interval. -/
theorem set_volume_spec_witness :
    0 ≤ (([1, 1, -1] : List ℚ).foldl MusicPlayer.set_volume
      (initPlayer [] [])).volume ∧
    (([1, 1, -1] : List ℚ).foldl MusicPlayer.set_volume
      (initPlayer [] [])).volume ≤ 1 :=
  (set_volume_spec (initPlayer [] [])).2 (by norm_num [initPlayer])
    (by norm_num [initPlayer]) [1, 1, -1]

